import Mathlib

/-!
Verification development for the sol-csv-sync supplier-update pipeline.

The TypeScript sources are shallowly embedded: JS numbers are modelled by
rationals (ℚ) for prices/costs/margins and by integers for quantities;
fallible remote calls are modelled by an explicit result type carrying either
a thrown message or a (possibly missing) payload; React state updates are
modelled as explicit state-trace functions.  String helpers (trim, toLower,
parseFloat, parseInt) are modelled after the JavaScript semantics actually
exercised by this code base (ASCII case folding, no exponent forms, since the
inputs are SKU strings and decimal number strings).
-/

/-- Characters treated as whitespace by the JavaScript trim / parse routines. -/
def jsWhitespaceChars : List Char :=
  [' ', '\t', '\n', '\r', '\x0b', '\x0c', ' ']

def isJsSpace (c : Char) : Bool := jsWhitespaceChars.contains c

/-- Model of String.prototype.trim. -/
def jsTrim (s : String) : String :=
  String.mk (((s.data.dropWhile isJsSpace).reverse.dropWhile isJsSpace).reverse)

/-- Model of String.prototype.toLowerCase restricted to ASCII case folding. -/
def jsToLower (s : String) : String :=
  String.mk (s.data.map Char.toLower)

/-- Numeric value of a decimal digit string, most significant digit first. -/
def digitsToNat (ds : List Char) : Nat :=
  ds.foldl (fun a c => a * 10 + (c.toNat - '0'.toNat)) 0

/-- Model of JavaScript parseFloat on the decimal strings used by this code
base (optional sign, integer digits, optional fractional digits; no exponent
forms occur in the inputs).  none models NaN. -/
def jsParseFloat (s : String) : Option ℚ :=
  let cs := s.data.dropWhile isJsSpace
  let signed : Bool × List Char :=
    match cs with
    | '-' :: rest => (true, rest)
    | '+' :: rest => (false, rest)
    | _ => (false, cs)
  let intDigits := signed.2.takeWhile Char.isDigit
  let afterInt := signed.2.dropWhile Char.isDigit
  let fracDigits : List Char :=
    match afterInt with
    | '.' :: r2 => r2.takeWhile Char.isDigit
    | _ => []
  if intDigits.isEmpty && fracDigits.isEmpty then none
  else
    let v : ℚ := (digitsToNat intDigits : ℚ) +
      (digitsToNat fracDigits : ℚ) / ((10 : ℚ) ^ fracDigits.length)
    some (if signed.1 then -v else v)

/-- Model of JavaScript parseInt with radix 10.  none models NaN. -/
def jsParseInt10 (s : String) : Option Int :=
  let cs := s.data.dropWhile isJsSpace
  let signed : Bool × List Char :=
    match cs with
    | '-' :: rest => (true, rest)
    | '+' :: rest => (false, rest)
    | _ => (false, cs)
  let ds := signed.2.takeWhile Char.isDigit
  if ds.isEmpty then none
  else some (if signed.1 then -(digitsToNat ds : Int) else (digitsToNat ds : Int))

/-- Model of the JavaScript idiom `cell || dflt`: an absent or empty-string
cell falls back to the default string. -/
def jsStringOr (c : Option String) (dflt : String) : String :=
  match c with
  | some s => if s = "" then dflt else s
  | none => dflt

/-- Truthiness of an optional string (undefined and the empty string are falsy). -/
def jsStrTruthy (s : Option String) : Bool :=
  match s with
  | some v => v ≠ ""
  | none => false

/-- Case-sensitive substring test (any position). -/
def strContainsSub (hay needle : String) : Bool :=
  (List.range (hay.data.length + 1)).any (fun i => needle.data.isPrefixOf (hay.data.drop i))

/-- Model of Number.prototype.toFixed(2): nearest hundredth, ties toward the
larger value, rendered with exactly two decimals.  Binary floating-point
artifacts of the source are not modelled. -/
def toFixed2 (q : ℚ) : String :=
  let scaled : Int := ⌊q * 100 + 1 / 2⌋
  let n : Nat := scaled.natAbs
  let sign : String := if scaled < 0 then "-" else ""
  let ip : Nat := n / 100
  let fp : Nat := n % 100
  sign ++ toString ip ++ "." ++ (if fp < 10 then "0" ++ toString fp else toString fp)

/-- Character-level split at every LF. -/
def splitLinesChars : List Char → List (List Char)
  | [] => [[]]
  | c :: rest =>
    let r := splitLinesChars rest
    if c = '\n' then [] :: r else (c :: r.headD []) :: r.tail

/-- Strip a single CR left dangling at a segment end. -/
def stripTrailingCR (cs : List Char) : List Char :=
  match cs.getLast? with
  | some '\r' => cs.dropLast
  | _ => cs

/-- Model of text.split on the pattern of an optional CR followed by LF:
split at every LF and strip the CR the pattern consumed before it. -/
def splitLinesCRLF (text : String) : List String :=
  (splitLinesChars text.data).map (fun cs => String.mk (stripTrailingCR cs))

/-! ## TabularParser (lib/supplier-updates.ts, parseCSV) -/

/-- Character scanner of one CSV line: quote toggling, doubled quote inside an
open quote as a literal quote, comma outside quotes ends a (trimmed) cell, and
the final cell is pushed unconditionally.  The accumulating cell is kept in
reverse character order. -/
def parseCSVLineGo : List Char → Bool → List Char → List String → List String
  | [], _, current, acc => acc ++ [jsTrim (String.mk current.reverse)]
  | '"' :: '"' :: rest, true, current, acc => parseCSVLineGo rest true ('"' :: current) acc
  | '"' :: rest, true, current, acc => parseCSVLineGo rest false current acc
  | '"' :: rest, false, current, acc => parseCSVLineGo rest true current acc
  | ',' :: rest, false, current, acc =>
      parseCSVLineGo rest false [] (acc ++ [jsTrim (String.mk current.reverse)])
  | c :: rest, inQuotes, current, acc => parseCSVLineGo rest inQuotes (c :: current) acc

def parseCSVLine (line : String) : List String :=
  parseCSVLineGo line.data false [] []

/-- parseCSV from lib/supplier-updates.ts: split on CR/LF, skip blank lines,
scan each remaining line into cells. -/
def parseCSV (text : String) : List (List String) :=
  (splitLinesCRLF text).filterMap (fun line =>
    if jsTrim line = "" then none else some (parseCSVLine line))

/-! ## RecordExtractor (lib/supplier-updates.ts) -/

/-- A supplier CSV row record (CSVProduct in types/supplier-updates.ts). -/
structure CSVProduct where
  sku : String
  cost : ℚ
  soh : Option Int
deriving DecidableEq, Inhabited

/-- Value of the stock-on-hand mapping slot: a column index or the explicit
"none" sentinel. -/
inductive SohValue where
  | col (index : Nat)
  | noneSentinel
deriving DecidableEq, Inhabited

/-- The three mapping slots of CSVFieldMapping (display labels omitted);
Option.none models the unset (null) state of a slot. -/
structure CSVFieldMapping where
  sku : Option Nat
  cost : Option Nat
  soh : Option SohValue
deriving DecidableEq, Inhabited

/-- cleanCostValue: strip every character except digits, dot and minus, then
parse as a float, mapping NaN to 0. -/
def cleanCostValue (value : String) : ℚ :=
  let cleaned := String.mk (value.data.filter (fun c => c.isDigit || c == '.' || c == '-'))
  (jsParseFloat cleaned).getD 0

/-- extractProductsFromCSV: requires a header plus one data row and both the
sku and cost columns mapped; iterates data rows, skipping rows whose
identifier cell is missing or trims to empty; attaches soh only when the
stock slot is a real column index. -/
def extractProductsFromCSV (csvData : List (List String)) (fields : CSVFieldMapping) :
    List CSVProduct :=
  if csvData.length < 2 then []
  else
    match fields.sku, fields.cost with
    | some skuIdx, some costIdx =>
      (csvData.drop 1).filterMap (fun row =>
        if row.isEmpty then none
        else
          let sku := jsTrim ((row.get? skuIdx).getD "")
          if sku = "" then none
          else
            let cost := cleanCostValue (jsStringOr (row.get? costIdx) "0")
            let soh : Option Int :=
              match fields.soh with
              | some (SohValue.col sohIdx) =>
                  some ((jsParseInt10 (jsStringOr (row.get? sohIdx) "0")).getD 0)
              | _ => none
            some { sku := sku, cost := cost, soh := soh })
    | _, _ => []

/-! ## MarginEngine (lib/supplier-updates.ts) -/

inductive MarginStatus where
  | good
  | medium
  | negative
deriving DecidableEq, Inhabited

/-- calculateMargin: 0 whenever cost is nonpositive, else (price / cost) * 100 - 100. -/
def calculateMargin (price cost : ℚ) : ℚ :=
  if cost ≤ 0 then 0 else (price / cost) * 100 - 100

/-- getMarginStatus: negative below zero, medium below the threshold, good otherwise. -/
def getMarginStatus (margin threshold : ℚ) : MarginStatus :=
  if margin < 0 then MarginStatus.negative
  else if margin < threshold then MarginStatus.medium
  else MarginStatus.good

/-! ## Catalog data as returned by the remote gateway (types/supplier-updates.ts) -/

structure QuantityEntry where
  name : String
  quantity : Int
deriving DecidableEq, Inhabited

/-- An inventoryLevel node: an optional location id (the location?.id chain)
and an optional quantities array. -/
structure InventoryLevel where
  location : Option String
  quantities : Option (List QuantityEntry)
deriving DecidableEq, Inhabited

/-- An inventoryItem node; unitCost holds the decimal amount string when
present, and the currency code is omitted as unused. -/
structure InventoryItem where
  id : String
  unitCost : Option String
  inventoryLevel : Option InventoryLevel
deriving DecidableEq, Inhabited

structure ShopifyVariant where
  id : String
  sku : Option String
  price : String
  inventoryItem : InventoryItem
  inventoryQuantity : Int
deriving DecidableEq, Inhabited

/-- A product node; featuredImage flattens the featuredMedia?.preview?.image?.url
chain to its optional final url. -/
structure ShopifyProduct where
  id : String
  title : String
  featuredImage : Option String
  variants : List ShopifyVariant
deriving DecidableEq, Inhabited

/-- The working item of the preview/commit stage (NormalizedProduct). -/
structure NormalizedProduct where
  id : String
  variantId : String
  inventoryItemId : String
  sku : String
  name : String
  image : String
  cost : ℚ
  price : ℚ
  quantity : Int
  costNew : ℚ
  quantityNew : Int
  margin : ℚ
  marginStatus : MarginStatus
  update : Bool
deriving DecidableEq, Inhabited

/-! ## CatalogMatcher (lib/supplier-updates.ts, normalizeShopifyProduct) -/

/-- The case-insensitive SKU comparison `v.sku?.toLowerCase() === other.toLowerCase()`;
a missing variant SKU never matches. -/
def skuLowerMatches (vsku : Option String) (csvSku : String) : Bool :=
  match vsku with
  | some s => jsToLower s == jsToLower csvSku
  | none => false

/-- The inventoryLevel?.quantities?.find by name "available" chain. -/
def availableQuantity (level : Option InventoryLevel) : Option Int :=
  match level with
  | some lv =>
    match lv.quantities with
    | some qs => (qs.find? (fun q => q.name == "available")).map (fun q => q.quantity)
    | none => none
  | none => none

/-- Location-scoped available quantity: with a truthy location filter the
level must carry exactly that location id, otherwise the aggregate
available quantity is used as-is. -/
def locationAvailable (variant : ShopifyVariant) (locationId : Option String) : Option Int :=
  if jsStrTruthy locationId then
    if (variant.inventoryItem.inventoryLevel.bind (fun lv => lv.location)) = locationId then
      availableQuantity variant.inventoryItem.inventoryLevel
    else none
  else availableQuantity variant.inventoryItem.inventoryLevel

/-- normalizeShopifyProduct: find the variant matching the CSV SKU
case-insensitively, resolve current cost/price/quantity, and build the
working item with its computed margin and status.  A unitCost whose amount
does not parse yields NaN in the source; it is modelled as 0 here. -/
def normalizeShopifyProduct (shopifyProduct : ShopifyProduct) (csvProduct : CSVProduct)
    (marginThreshold : ℚ) (locationId : Option String) : Option NormalizedProduct :=
  match shopifyProduct.variants.find? (fun v => skuLowerMatches v.sku csvProduct.sku) with
  | none => none
  | some variant =>
    let currentCost : ℚ :=
      match variant.inventoryItem.unitCost with
      | some amount => (jsParseFloat amount).getD 0
      | none => 0
    let currentPrice : ℚ := (jsParseFloat variant.price).getD 0
    let newCost := csvProduct.cost
    let currentQuantity : Int :=
      match locationAvailable variant locationId with
      | some q => q
      | none => variant.inventoryQuantity
    let newQuantity : Int := csvProduct.soh.getD currentQuantity
    let margin := calculateMargin currentPrice newCost
    some {
      id := shopifyProduct.id
      variantId := variant.id
      inventoryItemId := variant.inventoryItem.id
      sku := variant.sku.getD ""
      name := shopifyProduct.title
      image := shopifyProduct.featuredImage.getD ""
      cost := currentCost
      price := currentPrice
      quantity := currentQuantity
      costNew := newCost
      quantityNew := newQuantity
      margin := margin
      marginStatus := getMarginStatus margin marginThreshold
      update := true }

/-! ## chunkArray and the per-parent grouping (lib/supplier-updates.ts) -/

/-- Index loop of chunkArray, fuelled by the remaining list length (the source
loop advances its index by the chunk size each step; a chunk size of 0 makes
the source loop spin forever and is never used). -/
def chunkArrayGo (size : Nat) : Nat → List α → List (List α)
  | 0, _ => []
  | _, [] => []
  | Nat.succ fuel, arr@(_ :: _) => arr.take size :: chunkArrayGo size fuel (arr.drop size)

/-- chunkArray: slice the list into consecutive chunks of the given size. -/
def chunkArray (arr : List α) (size : Nat) : List (List α) :=
  chunkArrayGo size arr.length arr

/-- groupProductsByParent: group the items by parent product id with a Map,
preserving first-seen key order and within-group item order. -/
def groupProductsByParent (products : List NormalizedProduct) :
    List (String × List NormalizedProduct) :=
  products.foldl (fun groups product =>
    if groups.any (fun g => g.1 == product.id) then
      groups.map (fun g => if g.1 == product.id then (g.1, g.2 ++ [product]) else g)
    else groups ++ [(product.id, [product])]) []

/-! ## GraphQL query helpers (app/graphql/supplier-updates.ts) -/

/-- escapeQueryValue: double every backslash, then escape every double quote. -/
def escapeQueryValue (value : String) : String :=
  String.mk (value.data.foldr (fun c acc =>
    if c == '\\' then '\\' :: '\\' :: acc
    else if c == '"' then '\\' :: '"' :: acc
    else c :: acc) [])

/-- buildSkuQuery: trim the SKUs, drop empty ones, quote and escape each, and
join the disjuncts with OR. -/
def buildSkuQuery (skus : List String) : String :=
  String.intercalate " OR "
    (((skus.map jsTrim).filter (fun s => s ≠ "")).map
      (fun sku => "sku:\"" ++ escapeQueryValue sku ++ "\""))

/-- chunkSkusForQuery: the same slicing loop as chunkArray, specialised to SKU
strings in app/graphql/supplier-updates.ts. -/
def chunkSkusForQueryGo (batchSize : Nat) : Nat → List String → List (List String)
  | 0, _ => []
  | _, [] => []
  | Nat.succ fuel, skus@(_ :: _) =>
      skus.take batchSize :: chunkSkusForQueryGo batchSize fuel (skus.drop batchSize)

def chunkSkusForQuery (skus : List String) (batchSize : Nat) : List (List String) :=
  chunkSkusForQueryGo batchSize skus.length skus

/-! ## Hooks (hooks/supplier-updates.ts) -/

/-- allFieldsSelected: every one of the three mapping slots must be non-null
(the stock slot may hold the "none" sentinel, which is non-null). -/
def allFieldsSelected (fields : CSVFieldMapping) : Bool :=
  fields.sku.isSome && fields.cost.isSome && fields.soh.isSome

/-- updateProductPrice from usePricingProducts: the item whose variantId
matches gets the new price, a margin recomputed by the inline formula, and a
status reclassified against the current threshold (named margin in the hook);
every other item is returned untouched.  At costNew = 0 the source computes a
non-finite JS number; rational division by zero is total here, and the claims
exercise only nonzero costNew. -/
def updateProductPrice (products : List NormalizedProduct) (variantId : String)
    (newPrice : ℚ) (margin : ℚ) : List NormalizedProduct :=
  products.map (fun p =>
    if p.variantId == variantId then
      let newMargin := (newPrice / p.costNew) * 100 - 100
      { p with
        price := newPrice
        margin := newMargin
        marginStatus :=
          if newMargin < 0 then MarginStatus.negative
          else if newMargin < margin then MarginStatus.medium
          else MarginStatus.good }
    else p)

/-! ## Route action: shared response modelling (routes supplier-updates action) -/

/-- Per-item outcome reported by the commit actions (UpdateResponse). -/
structure UpdateResponse where
  sku : String
  updated : Bool
  message : String
  error : Option String
deriving DecidableEq, Inhabited

/-- Result of one admin.graphql call: either a thrown transport error carrying
its final message, or a response whose relevant data node may be missing. -/
inductive GwResult (α : Type) where
  | thrown (message : String)
  | ok (data : Option α)
deriving DecidableEq

structure UserError where
  field : Option (List String)
  message : String
deriving DecidableEq, Inhabited

/-- First error message of a user-error list ("" only when the list is empty,
which the call sites rule out). -/
def headErrorMessage (errors : List UserError) : String :=
  ((errors.head?).map (fun e => e.message)).getD ""

/-! ## Route action: lookupProducts intent -/

structure LookupAcc where
  allProducts : List NormalizedProduct
  foundSkus : List String
deriving DecidableEq

/-- Inner loop body over one returned variant: find the first CSV record whose
SKU matches case-insensitively, normalize it, and on success record the item
and the lowercased CSV SKU as found. -/
def lookupVariantStep (csvProducts : List CSVProduct) (marginThreshold : ℚ)
    (locationId : Option String) (shopifyProduct : ShopifyProduct)
    (acc : LookupAcc) (variant : ShopifyVariant) : LookupAcc :=
  match csvProducts.find? (fun p => skuLowerMatches variant.sku p.sku) with
  | some csvProduct =>
    match normalizeShopifyProduct shopifyProduct csvProduct marginThreshold locationId with
    | some normalized =>
      { allProducts := acc.allProducts ++ [normalized]
        foundSkus := acc.foundSkus ++ [jsToLower csvProduct.sku] }
    | none => acc
  | none => acc

def lookupProductStep (csvProducts : List CSVProduct) (marginThreshold : ℚ)
    (locationId : Option String) (acc : LookupAcc) (shopifyProduct : ShopifyProduct) :
    LookupAcc :=
  shopifyProduct.variants.foldl
    (lookupVariantStep csvProducts marginThreshold locationId shopifyProduct) acc

/-- One SKU batch: skip the gateway call when the built query is empty,
otherwise fold the returned products. -/
def lookupBatchStep (gw : String → List ShopifyProduct) (csvProducts : List CSVProduct)
    (marginThreshold : ℚ) (locationId : Option String)
    (acc : LookupAcc) (skuBatch : List String) : LookupAcc :=
  let query := buildSkuQuery skuBatch
  if query = "" then acc
  else (gw query).foldl (lookupProductStep csvProducts marginThreshold locationId) acc

structure LookupResult where
  products : List NormalizedProduct
  notFound : List String
  error : Option String
deriving DecidableEq

/-- The lookupProducts intent: batch the SKUs by 50, match every returned
variant back to its CSV record, and report as notFound every input SKU
(original casing) whose lowercased form was never recorded as found.  The
gateway is modelled as a function from the query string to the returned
product nodes. -/
def lookupProducts (csvProducts : List CSVProduct) (marginThreshold : ℚ)
    (locationId : Option String) (gw : String → List ShopifyProduct) : LookupResult :=
  if csvProducts.isEmpty then
    { products := [], notFound := [], error := some "No products to look up" }
  else
    let skuBatches := chunkArray (csvProducts.map (fun p => p.sku)) 50
    let acc := skuBatches.foldl
      (lookupBatchStep gw csvProducts marginThreshold locationId) ⟨[], []⟩
    { products := acc.allProducts
      notFound := (csvProducts.filter
        (fun p => !(acc.foundSkus.contains (jsToLower p.sku)))).map (fun p => p.sku)
      error := none }

/-! ## Route action: updateStock intent -/

structure InventoryChange where
  inventoryItemId : String
  locationId : String
  delta : Int
deriving DecidableEq, Inhabited

structure AdjustUserError where
  field : String
  message : String
deriving DecidableEq, Inhabited

structure InventoryAdjustPayload where
  userErrors : List AdjustUserError
deriving DecidableEq

def adjHeadMessage (errors : List AdjustUserError) : String :=
  ((errors.head?).map (fun e => e.message)).getD ""

/-- Inventory deltas of the included items, dropping zero deltas. -/
def stockChanges (products : List NormalizedProduct) (locationId : String) :
    List InventoryChange :=
  ((products.filter (fun p => p.update)).map (fun p =>
    { inventoryItemId := p.inventoryItemId
      locationId := locationId
      delta := p.quantityNew - p.quantity })).filter (fun c => c.delta != 0)

/-- Outcomes recorded for one inventory-adjust batch: on a thrown call every
item found for a change in the batch fails with the message "API error";
otherwise every such item succeeds or fails wholesale on the first user
error of the combined call. -/
def stockBatchResults (products : List NormalizedProduct)
    (resp : GwResult InventoryAdjustPayload) (batch : List InventoryChange) :
    List UpdateResponse :=
  match resp with
  | GwResult.ok data =>
    let userErrors := match data with
      | some p => p.userErrors
      | none => []
    batch.filterMap (fun change =>
      (products.find? (fun p => p.inventoryItemId == change.inventoryItemId)).map
        (fun product =>
          let hasError := !userErrors.isEmpty
          { sku := product.sku
            updated := !hasError
            message := if hasError then adjHeadMessage userErrors else "Stock updated"
            error := if hasError then some (adjHeadMessage userErrors) else none }))
  | GwResult.thrown msg =>
    batch.filterMap (fun change =>
      (products.find? (fun p => p.inventoryItemId == change.inventoryItemId)).map
        (fun product =>
          { sku := product.sku
            updated := false
            message := "API error"
            error := some msg }))

structure StockActionResult where
  results : List UpdateResponse
  error : Option String
deriving DecidableEq

/-- The updateStock intent: build nonzero inventory deltas of the included
items; when none remain, report every submitted product as needing no change;
otherwise issue one inventory-adjust call per batch of up to 100 changes. -/
def updateStockAction (products : List NormalizedProduct) (locationId : String)
    (invAdjust : List InventoryChange → GwResult InventoryAdjustPayload) :
    StockActionResult :=
  if products.isEmpty then { results := [], error := some "No products to update" }
  else
    let changes := stockChanges products locationId
    if changes.isEmpty then
      { results := products.map (fun p =>
          { sku := p.sku
            updated := false
            message := "No quantity change needed"
            error := none })
        error := none }
    else
      let changeBatches := chunkArray changes 100
      { results := changeBatches.foldl
          (fun acc batch => acc ++ stockBatchResults products (invAdjust batch) batch) []
        error := none }

/-! ## Route action: updatePricing intent -/

/-- Payload node of a productVariantsBulkUpdate response (only the user
errors are consulted by the action). -/
structure BulkUpdatePayload where
  userErrors : List UserError
deriving DecidableEq

/-- Payload node of an inventoryItemUpdate response. -/
structure InvItemUpdatePayload where
  userErrors : List UserError
deriving DecidableEq

/-- One variant entry of a productVariantsBulkUpdate call: the cost field is
present for the combined price+cost write and absent on the price-only retry. -/
structure VariantWriteInput where
  id : String
  price : String
  cost : Option ℚ
deriving DecidableEq

def combinedInputs (batch : List NormalizedProduct) : List VariantWriteInput :=
  batch.map (fun v => { id := v.variantId, price := toFixed2 v.price, cost := some v.costNew })

def priceOnlyInputs (batch : List NormalizedProduct) : List VariantWriteInput :=
  batch.map (fun v => { id := v.variantId, price := toFixed2 v.price, cost := none })

/-- Case-insensitive test of the cost-related error pattern (the alternation
of inventoryItem, cost and unitCost as substrings). -/
def costPatternTest (s : String) : Bool :=
  let l := jsToLower s
  strContainsSub l "inventoryitem" || strContainsSub l "cost" || strContainsSub l "unitcost"

/-- hasCostError: some user error whose message or dot-joined field path
matches the cost pattern. -/
def hasCostError (userErrors : List UserError) : Bool :=
  userErrors.any (fun e =>
    costPatternTest e.message || costPatternTest (String.intercalate "." (e.field.getD [])))

/-- The user errors of a bulk-update response, an absent data node reading as
no errors. -/
def bulkPayloadErrors (data : Option BulkUpdatePayload) : List UserError :=
  match data with
  | some p => p.userErrors
  | none => []

/-- Insertion into the JS Map of cost errors: replace the value of an
existing key, else append the binding. -/
def mapSet (m : List (String × String)) (k v : String) : List (String × String) :=
  if m.any (fun kv => kv.1 == k) then
    m.map (fun kv => if kv.1 == k then (k, v) else kv)
  else m ++ [(k, v)]

def mapGet (m : List (String × String)) (k : String) : Option String :=
  (m.find? (fun kv => kv.1 == k)).map (fun kv => kv.2)

/-- The standalone per-variant cost writes of the fallback: each variant gets
one inventoryItemUpdate call; a thrown call, a missing data node, or a first
user error records a message under the variant's SKU. -/
def buildCostErrors (invItem : String → ℚ → GwResult InvItemUpdatePayload)
    (batch : List NormalizedProduct) : List (String × String) :=
  batch.foldl (fun m v =>
    match invItem v.inventoryItemId v.costNew with
    | GwResult.thrown msg => mapSet m v.sku msg
    | GwResult.ok none => mapSet m v.sku "Cost update failed"
    | GwResult.ok (some payload) =>
      match payload.userErrors with
      | [] => m
      | e :: _ => mapSet m v.sku e.message) []

/-- Outcome of one variant after the fallback: failed when the price-only
retry reported any error or a truthy cost message is recorded under the
variant's SKU, with the message preferring the truthy cost message. -/
def fallbackOutcome (effectivePriceErrors : List UserError)
    (costErrors : List (String × String)) (variant : NormalizedProduct) : UpdateResponse :=
  let hasPriceError := !effectivePriceErrors.isEmpty
  let costError := mapGet costErrors variant.sku
  let hasError := hasPriceError || jsStrTruthy costError
  let message :=
    if hasError then
      match costError with
      | some ce => if ce ≠ "" then ce else headErrorMessage effectivePriceErrors
      | none => headErrorMessage effectivePriceErrors
    else "Pricing updated"
  { sku := variant.sku
    updated := !hasError
    message := message
    error := if hasError then some message else none }

/-- Processing of one variant sub-batch of the updatePricing intent: a
combined price+cost write; on cost-flagged rejection a price-only retry of
the same sub-batch followed by standalone per-variant cost writes; a throw
escaping to the per-group catch is an error value.  The two write operations
are modelled as functions from the call inputs to the call result. -/
def processSubBatch (bulkCall : List VariantWriteInput → GwResult BulkUpdatePayload)
    (invItem : String → ℚ → GwResult InvItemUpdatePayload)
    (variantBatch : List NormalizedProduct) : Except String (List UpdateResponse) :=
  match bulkCall (combinedInputs variantBatch) with
  | GwResult.thrown msg => Except.error msg
  | GwResult.ok data =>
    let userErrors := bulkPayloadErrors data
    if !userErrors.isEmpty && hasCostError userErrors then
      match bulkCall (priceOnlyInputs variantBatch) with
      | GwResult.thrown msg => Except.error msg
      | GwResult.ok priceData =>
        let effectivePriceErrors :=
          match priceData with
          | some p => p.userErrors
          | none => [{ field := none, message := "Price update failed" }]
        let costErrors := buildCostErrors invItem variantBatch
        Except.ok (variantBatch.map (fallbackOutcome effectivePriceErrors costErrors))
    else
      Except.ok (variantBatch.map (fun variant =>
        let hasError := !userErrors.isEmpty
        { sku := variant.sku
          updated := !hasError
          message := if hasError then headErrorMessage userErrors else "Pricing updated"
          error := if hasError then some (headErrorMessage userErrors) else none }))

/-- Sub-batch loop of one parent group: results accumulate across sub-batches;
a throw aborts the remaining sub-batches and appends an API-error outcome for
every variant of the whole group. -/
def processGroupGo (bulkCall : List VariantWriteInput → GwResult BulkUpdatePayload)
    (invItem : String → ℚ → GwResult InvItemUpdatePayload)
    (variants : List NormalizedProduct) :
    List (List NormalizedProduct) → List UpdateResponse → List UpdateResponse
  | [], acc => acc
  | b :: rest, acc =>
    match processSubBatch bulkCall invItem b with
    | Except.ok rs => processGroupGo bulkCall invItem variants rest (acc ++ rs)
    | Except.error msg =>
      acc ++ variants.map (fun v =>
        { sku := v.sku, updated := false, message := "API error", error := some msg })

/-- One parent group of the updatePricing intent: its variants split into
sub-batches of up to 100. -/
def processGroup (bulkCall : List VariantWriteInput → GwResult BulkUpdatePayload)
    (invItem : String → ℚ → GwResult InvItemUpdatePayload)
    (variants : List NormalizedProduct) : List UpdateResponse :=
  processGroupGo bulkCall invItem variants (chunkArray variants 100) []

/-- The pricing pass of the updatePricing intent: per-parent groups of the
included items, processed in group order (the optional secondary stock pass
is a separate concern and not consulted by these results). -/
def updatePricingResults (products : List NormalizedProduct)
    (bulk : String → List VariantWriteInput → GwResult BulkUpdatePayload)
    (invItem : String → ℚ → GwResult InvItemUpdatePayload) : List UpdateResponse :=
  let productsToUpdate := products.filter (fun p => p.update)
  (groupProductsByParent productsToUpdate).foldl
    (fun acc g => acc ++ processGroup (bulk g.1) invItem g.2) []

/-! ## Client-side batch submission (route component + useBatchProcessor) -/

/-- Action data observed by the client for one submitted progress batch. -/
structure ClientActionData where
  results : Option (List UpdateResponse)
  error : Option String
deriving DecidableEq, Inhabited

/-- State held by useBatchProcessor. -/
structure BatchRunState where
  isProcessing : Bool
  currentBatch : Nat
  totalBatches : Nat
  results : List UpdateResponse
deriving DecidableEq, Inhabited

/-- Truthiness of the error field of an action response. -/
def actionErrorTruthy (d : ClientActionData) : Bool := jsStrTruthy d.error

/-- Progress-batch loop of handleUpdatePricing / handleUpdateStock, fuelled by
the number of remaining batches: each iteration advances currentBatch, awaits
the batch response, appends its results when present, and stops early on a
truthy error.  The returned list is the state after each iteration. -/
def runBatchesGo (respond : Nat → ClientActionData) :
    Nat → Nat → BatchRunState → List BatchRunState
  | 0, _, _ => []
  | Nat.succ rem, i, s =>
    let data := respond i
    let s1 : BatchRunState :=
      { s with currentBatch := i + 1, results := s.results ++ (data.results.getD []) }
    if actionErrorTruthy data then [s1]
    else s1 :: runBatchesGo respond rem (i + 1) s1

/-- One full commit run: reset, mark processing with the batch count, run the
progress batches sequentially, and finally clear the processing flag.  The
trace lists the observable batch-run states in order. -/
def runUpdateBatches (productsToUpdate : List NormalizedProduct)
    (respond : Nat → ClientActionData) : List BatchRunState :=
  let batches := chunkArray productsToUpdate 50
  let s0 : BatchRunState :=
    { isProcessing := true, currentBatch := 0, totalBatches := batches.length, results := [] }
  let trace := s0 :: runBatchesGo respond batches.length 0 s0
  trace ++ [{ trace.getLastD s0 with isProcessing := false }]

/-- handleUpdatePricing: refuse an empty included set, otherwise run the
progress batches over the included items. -/
def handleUpdatePricing (products : List NormalizedProduct)
    (respond : Nat → ClientActionData) : List BatchRunState :=
  let productsToUpdate := products.filter (fun p => p.update)
  if productsToUpdate.isEmpty then [] else runUpdateBatches productsToUpdate respond

/-- handleUpdateStock: same loop as handleUpdatePricing with the stock intent. -/
def handleUpdateStock (products : List NormalizedProduct)
    (respond : Nat → ClientActionData) : List BatchRunState :=
  let productsToUpdate := products.filter (fun p => p.update)
  if productsToUpdate.isEmpty then [] else runUpdateBatches productsToUpdate respond

/-! ## Record extraction as worded by the specification -/

/-- Record extraction restated from the specification's words, for comparison
with the source's extractProductsFromCSV: a header plus at least one data row
and both identifier/cost columns set are required, else the result is empty;
data rows are iterated from index 1; a row whose identifier cell trims to
empty is skipped; the cost cell (the literal "0" when the row is shorter than
expected) is cleaned and parsed; stock is read and parsed as an integer only
when the stock slot is a real column index, and omitted when the slot is the
"none" sentinel or unset. -/
def specExtractRecords (csvData : List (List String)) (fields : CSVFieldMapping) :
    List CSVProduct :=
  if csvData.length < 2 then []
  else
    match fields.sku, fields.cost with
    | some skuIdx, some costIdx =>
      (csvData.drop 1).filterMap (fun row =>
        let ident := jsTrim (row.getD skuIdx "")
        if ident = "" then none
        else
          let costCell := if costIdx < row.length then row.getD costIdx "" else "0"
          let soh : Option Int :=
            match fields.soh with
            | some (SohValue.col sohIdx) =>
              let sohCell := if sohIdx < row.length then row.getD sohIdx "" else "0"
              some ((jsParseInt10 sohCell).getD 0)
            | _ => none
          some { sku := ident, cost := cleanCostValue costCell, soh := soh })
    | _, _ => []

/-! # Theorems -/

/-! ## C8: MarginEngine characterization -/

/-- C8: the margin and status functions are pure and satisfy: margin is 0
whenever cost is nonpositive and (price / cost) * 100 - 100 otherwise;
status is negative for negative margins (under a nonnegative threshold),
medium on [0, threshold), and good at or above the threshold. -/
theorem margin_status_characterization :
    (∀ price cost : ℚ, cost ≤ 0 → calculateMargin price cost = 0) ∧
    (∀ price cost : ℚ, 0 < cost → calculateMargin price cost = (price / cost) * 100 - 100) ∧
    (∀ m t : ℚ, m < 0 → 0 ≤ t → getMarginStatus m t = MarginStatus.negative) ∧
    (∀ m t : ℚ, 0 ≤ m → m < t → getMarginStatus m t = MarginStatus.medium) ∧
    (∀ m t : ℚ, 0 ≤ t → t ≤ m → getMarginStatus m t = MarginStatus.good) := by
  refine ⟨?_, ?_, ?_, ?_, ?_⟩
  · intro price cost h
    simp [calculateMargin, h]
  · intro price cost h
    simp [calculateMargin, not_le.mpr h]
  · intro m t hm _
    simp [getMarginStatus, hm]
  · intro m t hm hmt
    simp [getMarginStatus, not_lt.mpr hm, hmt]
  · intro m t ht htm
    have h0 : ¬ m < 0 := not_lt.mpr (le_trans ht htm)
    have h1 : ¬ m < t := not_lt.mpr htm
    simp [getMarginStatus, h0, h1]

/-- Witness for C8 at the inputs named by the specification. -/
theorem margin_status_characterization_witness :
    calculateMargin 7 (-2) = 0 ∧ calculateMargin 15 10 = 50 ∧
    getMarginStatus (-1/100) 5 = MarginStatus.negative ∧
    getMarginStatus 0 5 = MarginStatus.medium ∧
    getMarginStatus (4999/1000) 5 = MarginStatus.medium ∧
    getMarginStatus 5 5 = MarginStatus.good := by
  refine ⟨margin_status_characterization.1 7 (-2) (by norm_num),
    (margin_status_characterization.2.1 15 10 (by norm_num)).trans (by norm_num),
    margin_status_characterization.2.2.1 (-1/100) 5 (by norm_num) (by norm_num),
    margin_status_characterization.2.2.2.1 0 5 le_rfl (by norm_num),
    margin_status_characterization.2.2.2.1 (4999/1000) 5 (by norm_num) (by norm_num),
    margin_status_characterization.2.2.2.2 5 5 (by norm_num) le_rfl⟩

/-! ## C6: mapping completeness check -/

/-- C6 counterexample: a mapping with identifier and cost assigned but the
stock slot unset is rejected by allFieldsSelected, although the claim
states that it must be accepted. -/
theorem allFieldsSelected_stock_unset_counterexample :
    allFieldsSelected { sku := some 0, cost := some 1, soh := none } = false := by decide

/-- C6 amended: allFieldsSelected returns true iff all three slots, the
stock slot included, are set to non-null values (the stock slot may hold the
"none" sentinel, but may not remain unset). -/
theorem allFieldsSelected_iff (fields : CSVFieldMapping) :
    allFieldsSelected fields = true ↔
      (∃ i, fields.sku = some i) ∧ (∃ j, fields.cost = some j) ∧
        (∃ v, fields.soh = some v) := by
  obtain ⟨s, c, h⟩ := fields
  simp [allFieldsSelected, Option.isSome_iff_exists, and_assoc]

/-- Witness for C6: a fully assigned mapping with the stock sentinel "none"
is accepted. -/
theorem allFieldsSelected_iff_witness :
    allFieldsSelected { sku := some 0, cost := some 1, soh := some SohValue.noneSentinel } = true :=
  (allFieldsSelected_iff _).mpr ⟨⟨0, rfl⟩, ⟨1, rfl⟩, ⟨SohValue.noneSentinel, rfl⟩⟩

/-! ## C3: price edit and margin recomputation -/

theorem getD_map_lt {α β : Type} (f : α → β) (l : List α) (i : Nat)
    (h : i < l.length) (d : β) (d0 : α) :
    (l.map f).getD i d = f (l.getD i d0) := by
  rw [List.getD_eq_getElem?_getD, List.getD_eq_getElem?_getD, List.getElem?_map,
    List.getElem?_eq_getElem h]
  rfl

/-- C3 counterexample: updateProductPrice recomputes the margin by the raw
formula with no nonpositive-cost guard, so a price edit on an item with
costNew = -5 stores margin -300 where the claim requires the MarginEngine
value 0. -/
theorem updateProductPrice_negative_cost_counterexample :
    ((updateProductPrice
      [{ id := "P1", variantId := "V1", inventoryItemId := "I1", sku := "S1",
         name := "n", image := "", cost := 5, price := 12, quantity := 0,
         costNew := -5, quantityNew := 0, margin := 0,
         marginStatus := MarginStatus.medium, update := true }]
      "V1" 10 5).getD 0 default).margin = -300 ∧
    calculateMargin 10 (-5) = 0 ∧ ((-300 : ℚ) ≠ 0) := by
  refine ⟨?_, ?_, by norm_num⟩
  · simp only [updateProductPrice, List.map_cons, List.map_nil]
    norm_num
  · norm_num [calculateMargin]

/-- C3 amended: updateProductPrice leaves every item with a different
variantId untouched and, for the matching item, sets the new price and
recomputes margin by the raw inline formula (which agrees with
calculateMargin exactly when costNew is positive) and the status by the pure
status function of the new margin and the current threshold. -/
theorem updateProductPrice_spec (products : List NormalizedProduct) (variantId : String)
    (newPrice margin : ℚ) :
    (updateProductPrice products variantId newPrice margin).length = products.length ∧
    (∀ i, i < products.length →
      (products.getD i default).variantId ≠ variantId →
        (updateProductPrice products variantId newPrice margin).getD i default =
          products.getD i default) ∧
    (∀ i, i < products.length →
      (products.getD i default).variantId = variantId →
      0 < (products.getD i default).costNew →
        (updateProductPrice products variantId newPrice margin).getD i default =
          { products.getD i default with
            price := newPrice
            margin := calculateMargin newPrice (products.getD i default).costNew
            marginStatus :=
              getMarginStatus (calculateMargin newPrice (products.getD i default).costNew)
                margin }) := by
  refine ⟨by simp [updateProductPrice], ?_, ?_⟩
  · intro i hi hne
    rw [updateProductPrice, getD_map_lt _ _ _ hi _ default]
    simp only [beq_iff_eq]
    rw [if_neg hne]
  · intro i hi heq hpos
    rw [updateProductPrice, getD_map_lt _ _ _ hi _ default]
    simp only [beq_iff_eq]
    rw [if_pos heq]
    simp only [calculateMargin, getMarginStatus, if_neg (not_le.mpr hpos)]

/-- Witness for C3 at a concrete one-item list with positive costNew. -/
theorem updateProductPrice_spec_witness :
    (updateProductPrice
      [{ id := "P1", variantId := "V1", inventoryItemId := "I1", sku := "S1",
         name := "n", image := "", cost := 5, price := 12, quantity := 0,
         costNew := 4, quantityNew := 0, margin := 0,
         marginStatus := MarginStatus.medium, update := true }]
      "V1" 10 5).getD 0 default =
    { id := "P1", variantId := "V1", inventoryItemId := "I1", sku := "S1",
      name := "n", image := "", cost := 5, price := 10, quantity := 0,
      costNew := 4, quantityNew := 0, margin := 150,
      marginStatus := MarginStatus.good, update := true } := by
  have h := (updateProductPrice_spec
    [{ id := "P1", variantId := "V1", inventoryItemId := "I1", sku := "S1",
       name := "n", image := "", cost := 5, price := 12, quantity := 0,
       costNew := 4, quantityNew := 0, margin := 0,
       marginStatus := MarginStatus.medium, update := true }]
    "V1" 10 5).2.2 0 (by simp) rfl (by norm_num)
  rw [h]
  norm_num [List.getD, calculateMargin, getMarginStatus]


/-! ## C7: record extraction refines the specification's wording -/

theorem cleanCostValue_empty_str : cleanCostValue "" = 0 := by decide

theorem cleanCostValue_zero_str : cleanCostValue "0" = 0 := by
  have h : cleanCostValue "0" = (jsParseFloat "0").getD 0 := rfl
  have h1 : jsParseFloat "0" =
      some ((digitsToNat ['0'] : ℚ) + (digitsToNat [] : ℚ) / ((10 : ℚ) ^ (0 : Nat))) := rfl
  rw [h, h1]
  norm_num [digitsToNat]

/-- The source reads the cost cell as the JS expression of the cell or the
string "0" (an empty cell also falls back), the specification words it as the
"0" default exactly when the row is short; the cleaned values agree. -/
theorem costCell_agree (row : List String) (costIdx : Nat) :
    cleanCostValue (jsStringOr row[costIdx]? "0") =
      cleanCostValue (if costIdx < row.length then row[costIdx]?.getD "" else "0") := by
  cases hc : row[costIdx]? with
  | none =>
    have hge : ¬ costIdx < row.length := by
      rw [List.getElem?_eq_none_iff] at hc
      omega
    rw [if_neg hge]
    rfl
  | some s =>
    have hlt : costIdx < row.length := by
      by_contra h
      rw [List.getElem?_eq_none_iff.mpr (le_of_not_lt h)] at hc
      exact Option.noConfusion hc
    rw [if_pos hlt]
    by_cases hs : s = ""
    · subst hs
      show cleanCostValue (jsStringOr (some "") "0") = cleanCostValue ""
      rw [show jsStringOr (some "") "0" = "0" from rfl, cleanCostValue_zero_str,
        cleanCostValue_empty_str]
    · show cleanCostValue (jsStringOr (some s) "0") = cleanCostValue s
      simp [jsStringOr, hs]

/-- Same agreement for the stock cell parsed as an integer. -/
theorem sohCell_agree (row : List String) (k : Nat) :
    (jsParseInt10 (jsStringOr row[k]? "0")).getD 0 =
      (jsParseInt10 (if k < row.length then row[k]?.getD "" else "0")).getD 0 := by
  cases hc : row[k]? with
  | none =>
    have hge : ¬ k < row.length := by
      rw [List.getElem?_eq_none_iff] at hc
      omega
    rw [if_neg hge]
    rfl
  | some s =>
    have hlt : k < row.length := by
      by_contra h
      rw [List.getElem?_eq_none_iff.mpr (le_of_not_lt h)] at hc
      exact Option.noConfusion hc
    rw [if_pos hlt]
    by_cases hs : s = ""
    · subst hs
      show (jsParseInt10 (jsStringOr (some "") "0")).getD 0 = (jsParseInt10 "").getD 0
      decide
    · show (jsParseInt10 (jsStringOr (some s) "0")).getD 0 = (jsParseInt10 s).getD 0
      simp [jsStringOr, hs]

/-- C7: extractProductsFromCSV computes exactly the record list worded by the
specification (specExtractRecords): empty on fewer than two rows or an unset
identifier/cost column; data rows from index 1 with empty-identifier rows
skipped; cost cleaned from the cost cell with a "0" default; stockOnHand
attached only for a real stock column index, absent for "none" or unset. -/
theorem extractProductsFromCSV_eq_spec (csvData : List (List String))
    (fields : CSVFieldMapping) :
    extractProductsFromCSV csvData fields = specExtractRecords csvData fields := by
  unfold extractProductsFromCSV specExtractRecords
  split
  · rfl
  · obtain ⟨skuv, costv, sohv⟩ := fields
    cases skuv with
    | none => rfl
    | some skuIdx =>
      cases costv with
      | none => rfl
      | some costIdx =>
        simp only []
        congr 1
        funext row
        simp only [List.get?_eq_getElem?, List.getD_eq_getElem?_getD]
        by_cases hrow : row.isEmpty
        · have hnil : row = [] := by
            cases row with
            | nil => rfl
            | cons a as => simp [List.isEmpty] at hrow
          subst hnil
          rfl
        · rw [if_neg (by simpa using hrow)]
          by_cases hsku : jsTrim (row[skuIdx]?.getD "") = ""
          · rw [if_pos hsku, if_pos hsku]
          · rw [if_neg hsku, if_neg hsku]
            rw [costCell_agree]
            cases sohv with
            | none => rfl
            | some sv =>
              cases sv with
              | noneSentinel => rfl
              | col k =>
                simp only [sohCell_agree]

/-! ## C10: chunkArray partition properties -/

theorem chunkArrayGo_fuel {α : Type} (size : Nat) (hs : 1 ≤ size) :
    ∀ (f1 : Nat), ∀ (f2 : Nat) (arr : List α), arr.length ≤ f1 → arr.length ≤ f2 →
      chunkArrayGo size f1 arr = chunkArrayGo size f2 arr := by
  intro f1
  induction f1 with
  | zero =>
    intro f2 arr h1 h2
    have : arr = [] := List.eq_nil_of_length_eq_zero (Nat.le_zero.mp h1)
    subst this
    cases f2 <;> rfl
  | succ n ih =>
    intro f2 arr h1 h2
    cases arr with
    | nil => cases f2 <;> rfl
    | cons a as =>
      cases f2 with
      | zero => simp at h2
      | succ m =>
        show (a :: as).take size :: chunkArrayGo size n ((a :: as).drop size) =
          (a :: as).take size :: chunkArrayGo size m ((a :: as).drop size)
        congr 1
        apply ih
        · have := List.length_drop size (a :: as)
          simp only [List.length_cons] at this h1 ⊢
          omega
        · have := List.length_drop size (a :: as)
          simp only [List.length_cons] at this h2 ⊢
          omega

/-- Unfolding step of chunkArray on a nonempty list: the head chunk is the
first size elements and the tail chunks come from the remainder. -/
theorem chunkArray_eq_cons {α : Type} (size : Nat) (hs : 1 ≤ size) (xs : List α)
    (hxs : xs ≠ []) :
    chunkArray xs size = xs.take size :: chunkArray (xs.drop size) size := by
  obtain ⟨a, as, rfl⟩ := List.exists_cons_of_ne_nil hxs
  show (a :: as).take size :: chunkArrayGo size as.length ((a :: as).drop size) =
    (a :: as).take size :: chunkArrayGo size ((a :: as).drop size).length ((a :: as).drop size)
  congr 1
  apply chunkArrayGo_fuel size hs
  · have := List.length_drop size (a :: as)
    simp only [List.length_cons] at this ⊢
    omega
  · exact le_rfl

theorem chunkArray_nil {α : Type} (size : Nat) : chunkArray ([] : List α) size = [] := rfl

theorem chunkArray_join {α : Type} (size : Nat) (hs : 1 ≤ size) (xs : List α) :
    (chunkArray xs size).flatten = xs := by
  have H : ∀ (n : Nat) (xs : List α), xs.length ≤ n → (chunkArray xs size).flatten = xs := by
    intro n
    induction n with
    | zero =>
      intro xs h
      have : xs = [] := List.eq_nil_of_length_eq_zero (Nat.le_zero.mp h)
      subst this
      rfl
    | succ n ih =>
      intro xs h
      rcases eq_or_ne xs [] with rfl | hne
      · rfl
      · rw [chunkArray_eq_cons size hs xs hne, List.flatten_cons,
          ih (xs.drop size) (by
            have := List.length_drop size xs
            have hpos : 0 < xs.length := List.length_pos.mpr hne
            omega)]
        exact List.take_append_drop size xs
  exact H xs.length xs le_rfl

theorem chunkArray_mem_size {α : Type} (size : Nat) (hs : 1 ≤ size) (xs : List α) :
    ∀ c ∈ chunkArray xs size, c ≠ [] ∧ c.length ≤ size := by
  have H : ∀ (n : Nat) (xs : List α), xs.length ≤ n →
      ∀ c ∈ chunkArray xs size, c ≠ [] ∧ c.length ≤ size := by
    intro n
    induction n with
    | zero =>
      intro xs h c hc
      have : xs = [] := List.eq_nil_of_length_eq_zero (Nat.le_zero.mp h)
      subst this
      simp [chunkArray, chunkArrayGo] at hc
    | succ n ih =>
      intro xs h c hc
      rcases eq_or_ne xs [] with rfl | hne
      · simp [chunkArray, chunkArrayGo] at hc
      · rw [chunkArray_eq_cons size hs xs hne] at hc
        rcases List.mem_cons.mp hc with rfl | hmem
        · constructor
          · obtain ⟨a, as, rfl⟩ := List.exists_cons_of_ne_nil hne
            cases size with
            | zero => omega
            | succ k => simp [List.take_cons]
          · simp [List.length_take_le]
        · exact ih (xs.drop size) (by
            have := List.length_drop size xs
            have hpos : 0 < xs.length := List.length_pos.mpr hne
            omega) c hmem
  exact H xs.length xs le_rfl

theorem chunkArray_init_size {α : Type} (size : Nat) (hs : 1 ≤ size) (xs : List α) :
    ∀ i, i + 1 < (chunkArray xs size).length → ((chunkArray xs size).getD i []).length = size := by
  have H : ∀ (n : Nat) (xs : List α), xs.length ≤ n →
      ∀ i, i + 1 < (chunkArray xs size).length →
        ((chunkArray xs size).getD i []).length = size := by
    intro n
    induction n with
    | zero =>
      intro xs h i hi
      have : xs = [] := List.eq_nil_of_length_eq_zero (Nat.le_zero.mp h)
      subst this
      simp [chunkArray, chunkArrayGo] at hi
    | succ n ih =>
      intro xs h i hi
      rcases eq_or_ne xs [] with rfl | hne
      · simp [chunkArray, chunkArrayGo] at hi
      · rw [chunkArray_eq_cons size hs xs hne] at hi ⊢
        cases i with
        | zero =>
          simp only [List.getD_cons_zero]
          simp only [List.length_cons] at hi
          have htail : chunkArray (xs.drop size) size ≠ [] := by
            intro hempty
            rw [hempty] at hi
            simp at hi
          have hdrop : xs.drop size ≠ [] := by
            intro hd
            rw [hd, chunkArray_nil] at htail
            exact htail rfl
          have hlen : size < xs.length := by
            by_contra hle
            exact hdrop (List.drop_eq_nil_of_le (le_of_not_lt hle))
          rw [List.length_take]
          omega
        | succ j =>
          simp only [List.getD_cons_succ]
          simp only [List.length_cons] at hi
          exact ih (xs.drop size) (by
            have := List.length_drop size xs
            have hpos : 0 < xs.length := List.length_pos.mpr hne
            omega) j (by omega)
  exact H xs.length xs le_rfl

theorem chunkSkusForQueryGo_eq (size : Nat) :
    ∀ (fuel : Nat) (skus : List String),
      chunkSkusForQueryGo size fuel skus = chunkArrayGo size fuel skus := by
  intro fuel
  induction fuel with
  | zero => intro skus; cases skus <;> rfl
  | succ n ih =>
    intro skus
    cases skus with
    | nil => rfl
    | cons a as =>
      show (a :: as).take size :: chunkSkusForQueryGo size n ((a :: as).drop size) =
        (a :: as).take size :: chunkArrayGo size n ((a :: as).drop size)
      rw [ih]

/-- C10: for every list and chunk size at least 1, chunkArray partitions the
list: the chunks concatenate back to the list in order, every chunk is
nonempty of length at most the chunk size, every chunk except possibly the
last has exactly the chunk size, and chunkSkusForQuery is the same function. -/
theorem chunkArray_partition_spec {α : Type} (xs : List α) (size : Nat) (hs : 1 ≤ size) :
    (chunkArray xs size).flatten = xs ∧
    (∀ c ∈ chunkArray xs size, c ≠ [] ∧ c.length ≤ size) ∧
    (∀ i, i + 1 < (chunkArray xs size).length →
      ((chunkArray xs size).getD i []).length = size) ∧
    (∀ skus : List String, chunkSkusForQuery skus size = chunkArray skus size) :=
  ⟨chunkArray_join size hs xs, chunkArray_mem_size size hs xs,
    chunkArray_init_size size hs xs,
    fun skus => chunkSkusForQueryGo_eq size skus.length skus⟩

/-- Witness for C10 at a concrete list and chunk size. -/
theorem chunkArray_partition_spec_witness :
    (chunkArray [1, 2, 3] 2).flatten = [1, 2, 3] ∧
    ((chunkArray [1, 2, 3] 2).getD 0 []).length = 2 ∧
    chunkSkusForQuery ["a", "b", "c"] 2 = chunkArray ["a", "b", "c"] 2 := by
  have h := chunkArray_partition_spec [1, 2, 3] 2 (by norm_num)
  exact ⟨h.1, h.2.2.1 0 (by decide), h.2.2.2 ["a", "b", "c"]⟩

/-! ## C9: CSV parser -/

/-- The line scanner only ever appends cells to its accumulator and pushes
the final cell unconditionally, so it extends the accumulator by at least
one cell. -/
theorem parseCSVLineGo_shape (cs : List Char) (q : Bool) (cur : List Char) (acc : List String) :
    ∃ t, parseCSVLineGo cs q cur acc = acc ++ t ∧ t ≠ [] := by
  induction cs, q, cur, acc using parseCSVLineGo.induct with
  | case1 q cur acc => exact ⟨[jsTrim (String.mk cur.reverse)], rfl, by simp⟩
  | case2 rest cur acc ih => simpa [parseCSVLineGo] using ih
  | case3 rest cur acc hrest ih =>
    obtain ⟨t, ht, hne⟩ := ih
    refine ⟨t, ?_, hne⟩
    rw [← ht]
    cases rest with
    | nil => rfl
    | cons c2 rest2 =>
      have hc2 : c2 ≠ '"' := fun h => hrest rest2 (by rw [h])
      simp [parseCSVLineGo, hc2]
  | case4 rest cur acc ih => simpa [parseCSVLineGo] using ih
  | case5 rest cur acc ih =>
    obtain ⟨t, ht, hne⟩ := ih
    exact ⟨jsTrim (String.mk cur.reverse) :: t, by
      rw [show parseCSVLineGo (',' :: rest) false cur acc =
        parseCSVLineGo rest false [] (acc ++ [jsTrim (String.mk cur.reverse)]) from rfl, ht]
      simp, by simp⟩
  | case6 c rest q cur acc h1 h2 h3 h4 ih =>
    obtain ⟨t, ht, hne⟩ := ih
    refine ⟨t, ?_, hne⟩
    rw [← ht]
    have hcq : c ≠ '"' := by
      intro h
      cases q with
      | false => exact h3 h rfl
      | true => exact h2 h rfl
    by_cases hcc : c = ','
    · subst hcc
      have hq : q = true := by
        cases q with
        | false => exact (h4 rfl rfl).elim
        | true => rfl
      subst hq
      simp [parseCSVLineGo]
    · simp [parseCSVLineGo, hcq, hcc]

/-- C9: the parser round-trips the escaped-quote example, emits exactly one
row per non-blank line (blank lines produce no row at all), and every emitted
row holds at least one cell (the final cell of a line is pushed
unconditionally); totality of the embedding reflects that the scanner never
raises. -/
theorem parseCSV_spec :
    parseCSV "a,\"He said \"\"hi\"\"\",c" = [["a", "He said \"hi\"", "c"]] ∧
    (∀ text : String, (parseCSV text).length =
      ((splitLinesCRLF text).filter (fun l => !(jsTrim l == ""))).length) ∧
    (∀ (text : String) (row : List String), row ∈ parseCSV text → row ≠ []) := by
  refine ⟨by decide, ?_, ?_⟩
  · intro text
    unfold parseCSV
    induction splitLinesCRLF text with
    | nil => rfl
    | cons a ls ih =>
      by_cases h : jsTrim a = ""
      · simp only [List.filterMap_cons, List.filter_cons, if_pos h, beq_iff_eq, h]
        simpa using ih
      · simp only [List.filterMap_cons, List.filter_cons, if_neg h]
        have hb : (!(jsTrim a == "")) = true := by
          simp [h]
        rw [hb]
        simp [ih]
  · intro text row h
    obtain ⟨line, hline, hf⟩ := List.mem_filterMap.mp h
    by_cases hb : jsTrim line = ""
    · rw [if_pos hb] at hf
      exact Option.noConfusion hf
    · rw [if_neg hb] at hf
      have hrow : parseCSVLine line = row := Option.some.inj hf
      obtain ⟨t, ht, hne⟩ := parseCSVLineGo_shape line.data false [] []
      rw [← hrow]
      unfold parseCSVLine
      rw [ht]
      simpa using hne

/-- Witness for C9: a concrete two-line file with one blank line in between. -/
theorem parseCSV_spec_witness :
    (parseCSV "x,y\n   \nz").length =
      ((splitLinesCRLF "x,y\n   \nz").filter (fun l => !(jsTrim l == ""))).length ∧
    (["x", "y"] ≠ ([] : List String)) :=
  ⟨parseCSV_spec.2.1 "x,y\n   \nz",
    parseCSV_spec.2.2 "x,y\n   \nz" ["x", "y"] (by decide)⟩

/-! ## C5: progress batches and batch-run state -/

/-- Loop invariant of the progress-batch runner: starting at index i, every
recorded state advances the batch counter by exactly one step from its
predecessor, only appends to the accumulated results, stays at or below
i plus the remaining batch count, and preserves the stored batch total and
processing flag. -/
theorem runBatchesGo_chain (respond : Nat → ClientActionData) :
    ∀ (rem i : Nat) (s : BatchRunState), s.currentBatch = i →
      List.Chain' (fun a b =>
          (b.currentBatch = a.currentBatch + 1 ∨ b.currentBatch = a.currentBatch) ∧
          ∃ t, b.results = a.results ++ t)
        (s :: runBatchesGo respond rem i s) ∧
      ∀ x ∈ runBatchesGo respond rem i s,
        x.currentBatch ≤ i + rem ∧ x.totalBatches = s.totalBatches ∧
          x.isProcessing = s.isProcessing := by
  intro rem
  induction rem with
  | zero =>
    intro i s hs
    constructor
    · simp [runBatchesGo]
    · intro x hx
      simp [runBatchesGo] at hx
  | succ rem ih =>
    intro i s hs
    by_cases he : actionErrorTruthy (respond i)
    · have hgo : runBatchesGo respond (rem + 1) i s =
          [{ s with
              currentBatch := i + 1
              results := s.results ++ ((respond i).results.getD []) }] := by
        show (if actionErrorTruthy (respond i) then _ else _) = _
        rw [if_pos he]
      rw [hgo]
      refine ⟨?_, ?_⟩
      · refine List.chain'_cons.mpr ⟨⟨Or.inl (by simp [hs]), ⟨_, rfl⟩⟩, ?_⟩
        simp
      · intro x hx
        simp only [List.mem_singleton] at hx
        subst hx
        refine ⟨by simp, rfl, rfl⟩
    · have hgo : runBatchesGo respond (rem + 1) i s =
          { s with
            currentBatch := i + 1
            results := s.results ++ ((respond i).results.getD []) } ::
            runBatchesGo respond rem (i + 1)
              { s with
                currentBatch := i + 1
                results := s.results ++ ((respond i).results.getD []) } := by
        show (if actionErrorTruthy (respond i) then _ else _) = _
        rw [if_neg he]
      rw [hgo]
      obtain ⟨ihchain, ihmem⟩ := ih (i + 1)
        { s with
          currentBatch := i + 1
          results := s.results ++ ((respond i).results.getD []) } rfl
      refine ⟨?_, ?_⟩
      · exact List.chain'_cons.mpr ⟨⟨Or.inl (by simp [hs]), ⟨_, rfl⟩⟩, ihchain⟩
      · intro x hx
        rcases List.mem_cons.mp hx with rfl | hmem
        · exact ⟨by simp, rfl, rfl⟩
        · obtain ⟨h1, h2, h3⟩ := ihmem x hmem
          exact ⟨by omega, h2, h3⟩

/-- One commit run: the trace starts at the reset state carrying the batch
count, the batch counter never jumps and the accumulated outcomes only grow
along the trace, and every state stays within the batch count and stores it
unchanged. -/
theorem runUpdateBatches_spec (included : List NormalizedProduct)
    (respond : Nat → ClientActionData) :
    (runUpdateBatches included respond).head? =
      some ⟨true, 0, (chunkArray included 50).length, []⟩ ∧
    List.Chain' (fun a b =>
        (b.currentBatch = a.currentBatch + 1 ∨ b.currentBatch = a.currentBatch) ∧
        ∃ t, b.results = a.results ++ t) (runUpdateBatches included respond) ∧
    ∀ s ∈ runUpdateBatches included respond,
      s.currentBatch ≤ (chunkArray included 50).length ∧
      s.totalBatches = (chunkArray included 50).length := by
  have main : ∀ n : Nat,
      (((⟨true, 0, n, []⟩ :: runBatchesGo respond n 0 ⟨true, 0, n, []⟩) ++
          [{ ((⟨true, 0, n, []⟩ : BatchRunState) ::
              runBatchesGo respond n 0 ⟨true, 0, n, []⟩).getLastD ⟨true, 0, n, []⟩ with
            isProcessing := false }] : List BatchRunState).head? = some ⟨true, 0, n, []⟩) ∧
      List.Chain' (fun a b =>
          (b.currentBatch = a.currentBatch + 1 ∨ b.currentBatch = a.currentBatch) ∧
          ∃ t, b.results = a.results ++ t)
        ((⟨true, 0, n, []⟩ :: runBatchesGo respond n 0 ⟨true, 0, n, []⟩) ++
          [{ ((⟨true, 0, n, []⟩ : BatchRunState) ::
              runBatchesGo respond n 0 ⟨true, 0, n, []⟩).getLastD ⟨true, 0, n, []⟩ with
            isProcessing := false }]) ∧
      ∀ s ∈ ((⟨true, 0, n, []⟩ :: runBatchesGo respond n 0 ⟨true, 0, n, []⟩) ++
          [{ ((⟨true, 0, n, []⟩ : BatchRunState) ::
              runBatchesGo respond n 0 ⟨true, 0, n, []⟩).getLastD ⟨true, 0, n, []⟩ with
            isProcessing := false }] : List BatchRunState),
        s.currentBatch ≤ n ∧ s.totalBatches = n := by
    intro n
    obtain ⟨hchain, hmem⟩ := runBatchesGo_chain respond n 0 ⟨true, 0, n, []⟩ rfl
    obtain ⟨ylast, hylast⟩ : ∃ y, ((⟨true, 0, n, []⟩ : BatchRunState) ::
        runBatchesGo respond n 0 ⟨true, 0, n, []⟩).getLast? = some y :=
      Option.isSome_iff_exists.mp (List.getLast?_isSome.mpr (List.cons_ne_nil _ _))
    have hlastD : ((⟨true, 0, n, []⟩ : BatchRunState) ::
        runBatchesGo respond n 0 ⟨true, 0, n, []⟩).getLastD ⟨true, 0, n, []⟩ = ylast := by
      rw [List.getLastD_eq_getLast?, hylast]
      rfl
    have hbound : ∀ y, y ∈ ((⟨true, 0, n, []⟩ : BatchRunState) ::
        runBatchesGo respond n 0 ⟨true, 0, n, []⟩) →
        y.currentBatch ≤ n ∧ y.totalBatches = n := by
      intro y hy
      rcases List.mem_cons.mp hy with rfl | hmem2
      · exact ⟨Nat.zero_le _, rfl⟩
      · obtain ⟨h1, h2, _⟩ := hmem y hmem2
        exact ⟨by omega, h2⟩
    refine ⟨rfl, ?_, ?_⟩
    · refine List.chain'_append.mpr ⟨hchain, List.chain'_singleton _, ?_⟩
      intro x hx y hy
      rw [Option.mem_def, hylast, Option.some.injEq] at hx
      simp only [List.head?_cons, Option.mem_def, Option.some.injEq] at hy
      subst hx
      subst hy
      rw [hlastD]
      exact ⟨Or.inr rfl, [], by simp⟩
    · intro s hs
      rcases List.mem_append.mp hs with hs1 | hs2
      · exact hbound s hs1
      · simp only [List.mem_singleton] at hs2
        subst hs2
        rw [hlastD]
        exact hbound ylast (List.mem_of_mem_getLast? hylast)
  exact main (chunkArray included 50).length

/-- C5: both commit handlers run the same progress loop over the included
items, partitioned into batches of 50 in input order (120 items giving sizes
[50, 50, 20]); within one run the state is reset before starting (the trace
head carries batch index 0, no outcomes, and the batch total), the batch
index only advances monotonically by single steps and stays within the batch
total, and the accumulated outcomes only grow, by appending each batch's
results in completion order. -/
theorem handleUpdate_progress_spec (products : List NormalizedProduct)
    (respond : Nat → ClientActionData) :
    (handleUpdateStock products respond = handleUpdatePricing products respond) ∧
    (products.filter (fun p => p.update) ≠ [] →
      (handleUpdatePricing products respond).head? =
        some ⟨true, 0, (chunkArray (products.filter (fun p => p.update)) 50).length, []⟩ ∧
      List.Chain' (fun a b =>
          (b.currentBatch = a.currentBatch + 1 ∨ b.currentBatch = a.currentBatch) ∧
          ∃ t, b.results = a.results ++ t) (handleUpdatePricing products respond) ∧
      ∀ s ∈ handleUpdatePricing products respond,
        s.currentBatch ≤ (chunkArray (products.filter (fun p => p.update)) 50).length ∧
        s.totalBatches = (chunkArray (products.filter (fun p => p.update)) 50).length) ∧
    (∀ l : List NormalizedProduct, l.length = 120 →
      (chunkArray l 50).map List.length = [50, 50, 20]) := by
  refine ⟨rfl, ?_, ?_⟩
  · intro hne
    have hni : (products.filter (fun p => p.update)).isEmpty = false := by
      simpa [List.isEmpty_iff] using hne
    have hdef : handleUpdatePricing products respond =
        runUpdateBatches (products.filter (fun p => p.update)) respond := by
      unfold handleUpdatePricing
      simp only [hni, Bool.false_eq_true, if_false]
    rw [hdef]
    exact runUpdateBatches_spec (products.filter (fun p => p.update)) respond
  · intro l hl
    have h50 : (1 : Nat) ≤ 50 := by norm_num
    have h1 : l ≠ [] := by
      intro h
      rw [h] at hl
      simp at hl
    have hd1 : (l.drop 50).length = 70 := by
      rw [List.length_drop, hl]
    have h2 : l.drop 50 ≠ [] := by
      intro h
      rw [h] at hd1
      simp at hd1
    have hd2 : ((l.drop 50).drop 50).length = 20 := by
      rw [List.length_drop, hd1]
    have h3 : (l.drop 50).drop 50 ≠ [] := by
      intro h
      rw [h] at hd2
      simp at hd2
    have hd3 : (((l.drop 50).drop 50).drop 50).length = 0 := by
      rw [List.length_drop, hd2]
    have h4 : ((l.drop 50).drop 50).drop 50 = [] :=
      List.eq_nil_of_length_eq_zero hd3
    rw [chunkArray_eq_cons 50 h50 l h1, chunkArray_eq_cons 50 h50 (l.drop 50) h2,
      chunkArray_eq_cons 50 h50 ((l.drop 50).drop 50) h3, h4, chunkArray_nil]
    simp only [List.map_cons, List.map_nil, List.length_take]
    rw [hl, hd1, hd2]
    norm_num

/-- Witness for C5: a one-item run and the 120-item batch partition. -/
theorem handleUpdate_progress_spec_witness :
    (handleUpdatePricing
        [{ id := "P1", variantId := "V1", inventoryItemId := "I1", sku := "S1",
           name := "n", image := "", cost := 0, price := 0, quantity := 0,
           costNew := 0, quantityNew := 0, margin := 0,
           marginStatus := MarginStatus.good, update := true }]
        (fun _ => ({ results := some [], error := none } : ClientActionData))).head? =
      some ⟨true, 0, (chunkArray
        (([{ id := "P1", variantId := "V1", inventoryItemId := "I1", sku := "S1",
             name := "n", image := "", cost := 0, price := 0, quantity := 0,
             costNew := 0, quantityNew := 0, margin := 0,
             marginStatus := MarginStatus.good, update := true }] :
           List NormalizedProduct).filter
          (fun p => p.update)) 50).length, []⟩ ∧
    (chunkArray (List.replicate 120 (default : NormalizedProduct)) 50).map List.length =
      [50, 50, 20] := by
  have h := handleUpdate_progress_spec
    [{ id := "P1", variantId := "V1", inventoryItemId := "I1", sku := "S1",
       name := "n", image := "", cost := 0, price := 0, quantity := 0,
       costNew := 0, quantityNew := 0, margin := 0,
       marginStatus := MarginStatus.good, update := true }]
    (fun _ => ({ results := some [], error := none } : ClientActionData))
  exact ⟨(h.2.1 (by decide)).1, h.2.2 (List.replicate 120 default) (by simp)⟩

/-! ## C4: zero-delta items in the stock-only commit -/

/-- C4 counterexample: submitting one included zero-delta item together with
one included nonzero-delta item yields a result list containing only the
nonzero-delta item's outcome; the zero-delta item receives no outcome at all,
although the claim requires it to be reported with the no-change message. -/
theorem updateStock_zero_delta_counterexample :
    (updateStockAction
      [{ id := "P1", variantId := "V1", inventoryItemId := "I1", sku := "S1",
         name := "", image := "", cost := 0, price := 0, quantity := 5,
         costNew := 0, quantityNew := 5, margin := 0,
         marginStatus := MarginStatus.good, update := true },
       { id := "P2", variantId := "V2", inventoryItemId := "I2", sku := "S2",
         name := "", image := "", cost := 0, price := 0, quantity := 1,
         costNew := 0, quantityNew := 2, margin := 0,
         marginStatus := MarginStatus.good, update := true }]
      "L" (fun _ => GwResult.ok (some { userErrors := [] }))).results =
    [{ sku := "S2", updated := true, message := "Stock updated", error := none }] := by
  decide

theorem foldl_append_eq_flatten {β γ : Type} (f : β → List γ) (l : List β) :
    ∀ init : List γ, l.foldl (fun acc b => acc ++ f b) init = init ++ (l.map f).flatten := by
  induction l with
  | nil => intro init; simp
  | cons a l ih => intro init; simp [ih]

/-- C4 amended: a zero-delta item is never part of any inventory-adjust call;
when every included item has a zero delta the action reports every submitted
product (included or not) with the no-change message; but when at least one
nonzero delta exists, zero-delta included items receive no outcome at all
(given distinct inventory-record ids and SKUs). -/
theorem updateStock_zero_delta_spec (products : List NormalizedProduct) (locationId : String)
    (invAdjust : List InventoryChange → GwResult InventoryAdjustPayload) :
    (∀ batch ∈ chunkArray (stockChanges products locationId) 100,
      ∀ c ∈ batch, c.delta ≠ 0) ∧
    (products ≠ [] → stockChanges products locationId = [] →
      (updateStockAction products locationId invAdjust).results =
        products.map (fun p =>
          { sku := p.sku, updated := false,
            message := "No quantity change needed", error := none })) ∧
    (List.Pairwise (fun a b =>
        a.inventoryItemId ≠ b.inventoryItemId ∧ a.sku ≠ b.sku) products →
      stockChanges products locationId ≠ [] →
      ∀ p ∈ products, p.update = true → p.quantityNew - p.quantity = 0 →
        ∀ r ∈ (updateStockAction products locationId invAdjust).results,
          r.sku ≠ p.sku) := by
  refine ⟨?_, ?_, ?_⟩
  · intro batch hb c hc
    have hcj : c ∈ (chunkArray (stockChanges products locationId) 100).flatten :=
      List.mem_flatten.mpr ⟨batch, hb, hc⟩
    rw [chunkArray_join 100 (by norm_num)] at hcj
    have hpred := List.of_mem_filter hcj
    simpa using hpred
  · intro hne hch
    have hni : products.isEmpty = false := by
      simpa [List.isEmpty_iff] using hne
    have hci : (stockChanges products locationId).isEmpty = true := by
      simp [List.isEmpty_iff, hch]
    unfold updateStockAction
    simp only [hni, Bool.false_eq_true, if_false, hci, if_true]
  · intro hpw hch p hp hupd hdelta r hr
    have hsymm : Symmetric (fun a b : NormalizedProduct =>
        a.inventoryItemId ≠ b.inventoryItemId ∧ a.sku ≠ b.sku) :=
      fun a b h => ⟨h.1.symm, h.2.symm⟩
    have hni : products.isEmpty = false := by
      simpa [List.isEmpty_iff] using List.ne_nil_of_mem hp
    have hci : (stockChanges products locationId).isEmpty = false := by
      simpa [List.isEmpty_iff] using hch
    have hres : (updateStockAction products locationId invAdjust).results =
        ((chunkArray (stockChanges products locationId) 100).map
          (fun batch => stockBatchResults products (invAdjust batch) batch)).flatten := by
      unfold updateStockAction
      simp only [hni, Bool.false_eq_true, if_false, hci, if_true]
      rw [foldl_append_eq_flatten]
      simp
    rw [hres] at hr
    obtain ⟨rs, hrs, hrmem⟩ := List.mem_flatten.mp hr
    obtain ⟨batch, hbatch, rfl⟩ := List.mem_map.mp hrs
    have hfromq : ∃ q change, change ∈ batch ∧
        products.find? (fun x => x.inventoryItemId == change.inventoryItemId) = some q ∧
        r.sku = q.sku := by
      cases hresp : invAdjust batch with
      | ok data =>
        rw [hresp] at hrmem
        obtain ⟨change, hcmem, hsome⟩ := List.mem_filterMap.mp hrmem
        cases hfind : products.find? (fun x => x.inventoryItemId == change.inventoryItemId) with
        | none =>
          rw [hfind] at hsome
          exact Option.noConfusion hsome
        | some q =>
          rw [hfind] at hsome
          have := Option.some.inj hsome
          exact ⟨q, change, hcmem, hfind, by rw [← this]⟩
      | thrown msg =>
        rw [hresp] at hrmem
        obtain ⟨change, hcmem, hsome⟩ := List.mem_filterMap.mp hrmem
        cases hfind : products.find? (fun x => x.inventoryItemId == change.inventoryItemId) with
        | none =>
          rw [hfind] at hsome
          exact Option.noConfusion hsome
        | some q =>
          rw [hfind] at hsome
          have := Option.some.inj hsome
          exact ⟨q, change, hcmem, hfind, by rw [← this]⟩
    obtain ⟨q, change, hcmem, hfind, hrsku⟩ := hfromq
    have hqmem : q ∈ products := List.mem_of_find?_eq_some hfind
    have hqid : q.inventoryItemId = change.inventoryItemId := by
      have := List.find?_some hfind
      simpa using this
    have hchg : change ∈ stockChanges products locationId := by
      have : change ∈ (chunkArray (stockChanges products locationId) 100).flatten :=
        List.mem_flatten.mpr ⟨batch, hbatch, hcmem⟩
      rwa [chunkArray_join 100 (by norm_num)] at this
    have hcd : change.delta ≠ 0 := by
      have := List.of_mem_filter hchg
      simpa using this
    obtain ⟨p0, hp0, hchange⟩ := List.mem_map.mp (List.mem_of_mem_filter hchg)
    have hp0mem : p0 ∈ products := List.mem_of_mem_filter hp0
    have hq0 : q = p0 := by
      by_contra hne2
      have hid0 : change.inventoryItemId = p0.inventoryItemId := by
        rw [← hchange]
      exact ((hpw.forall hsymm) hqmem hp0mem hne2).1 (by rw [hqid, hid0])
    have hqdelta : q.quantityNew - q.quantity ≠ 0 := by
      rw [hq0]
      have : change.delta = p0.quantityNew - p0.quantity := by rw [← hchange]
      rw [← this]
      exact hcd
    have hqp : q ≠ p := by
      intro h
      rw [h] at hqdelta
      exact hqdelta hdelta
    rw [hrsku]
    exact ((hpw.forall hsymm) hqmem hp hqp).2

/-- Witness for C4 at the concrete mixed-delta run. -/
theorem updateStock_zero_delta_spec_witness :
    ((updateStockAction
      [{ id := "P1", variantId := "V1", inventoryItemId := "I1", sku := "S1",
         name := "", image := "", cost := 0, price := 0, quantity := 5,
         costNew := 0, quantityNew := 5, margin := 0,
         marginStatus := MarginStatus.good, update := true },
       { id := "P2", variantId := "V2", inventoryItemId := "I2", sku := "S2",
         name := "", image := "", cost := 0, price := 0, quantity := 1,
         costNew := 0, quantityNew := 2, margin := 0,
         marginStatus := MarginStatus.good, update := true }]
      "L" (fun _ => GwResult.ok (some { userErrors := [] }))).results.headD
        default).sku ≠ "S1" := by
  have h := (updateStock_zero_delta_spec
    [{ id := "P1", variantId := "V1", inventoryItemId := "I1", sku := "S1",
       name := "", image := "", cost := 0, price := 0, quantity := 5,
       costNew := 0, quantityNew := 5, margin := 0,
       marginStatus := MarginStatus.good, update := true },
     { id := "P2", variantId := "V2", inventoryItemId := "I2", sku := "S2",
       name := "", image := "", cost := 0, price := 0, quantity := 1,
       costNew := 0, quantityNew := 2, margin := 0,
       marginStatus := MarginStatus.good, update := true }]
    "L" (fun _ => GwResult.ok (some { userErrors := [] }))).2.2
  exact h (by decide) (by decide)
    { id := "P1", variantId := "V1", inventoryItemId := "I1", sku := "S1",
      name := "", image := "", cost := 0, price := 0, quantity := 5,
      costNew := 0, quantityNew := 5, margin := 0,
      marginStatus := MarginStatus.good, update := true }
    (by decide) rfl (by decide)
    ((updateStockAction
      [{ id := "P1", variantId := "V1", inventoryItemId := "I1", sku := "S1",
         name := "", image := "", cost := 0, price := 0, quantity := 5,
         costNew := 0, quantityNew := 5, margin := 0,
         marginStatus := MarginStatus.good, update := true },
       { id := "P2", variantId := "V2", inventoryItemId := "I2", sku := "S2",
         name := "", image := "", cost := 0, price := 0, quantity := 1,
         costNew := 0, quantityNew := 2, margin := 0,
         marginStatus := MarginStatus.good, update := true }]
      "L" (fun _ => GwResult.ok (some { userErrors := [] }))).results.headD default)
    (by decide)

/-! ## C2: lookup partitions the input SKU set -/

/-- A successfully normalized item carries a variant SKU that matches the CSV
record's SKU case-insensitively. -/
theorem normalize_sku_toLower {sp : ShopifyProduct} {p : CSVProduct} {t : ℚ}
    {loc : Option String} {n : NormalizedProduct}
    (h : normalizeShopifyProduct sp p t loc = some n) :
    jsToLower n.sku = jsToLower p.sku := by
  unfold normalizeShopifyProduct at h
  cases hf : sp.variants.find? (fun v => skuLowerMatches v.sku p.sku) with
  | none =>
    rw [hf] at h
    exact Option.noConfusion h
  | some v =>
    rw [hf] at h
    have hpred := List.find?_some hf
    cases hsku : v.sku with
    | none =>
      rw [hsku] at hpred
      simp [skuLowerMatches] at hpred
    | some s =>
      rw [hsku] at hpred
      have hlow : jsToLower s = jsToLower p.sku := by
        simpa [skuLowerMatches] using hpred
      have hn : n.sku = s := by
        have hn2 := Option.some.inj h
        rw [← hn2, hsku]
        rfl
      rw [hn, hlow]

/-- Invariant tied between the accumulated items and the found-SKU set: every
item's lowercased SKU is recorded as found, and every found SKU belongs to
some accumulated item. -/
theorem lookup_inv_step (csvProducts : List CSVProduct) (t : ℚ) (loc : Option String)
    (sp : ShopifyProduct) (acc : LookupAcc) (v : ShopifyVariant)
    (h : (∀ n ∈ acc.allProducts, jsToLower n.sku ∈ acc.foundSkus) ∧
         (∀ s ∈ acc.foundSkus, ∃ n ∈ acc.allProducts, jsToLower n.sku = s)) :
    (∀ n ∈ (lookupVariantStep csvProducts t loc sp acc v).allProducts,
      jsToLower n.sku ∈ (lookupVariantStep csvProducts t loc sp acc v).foundSkus) ∧
    (∀ s ∈ (lookupVariantStep csvProducts t loc sp acc v).foundSkus,
      ∃ n ∈ (lookupVariantStep csvProducts t loc sp acc v).allProducts,
        jsToLower n.sku = s) := by
  unfold lookupVariantStep
  cases hf : csvProducts.find? (fun p => skuLowerMatches v.sku p.sku) with
  | none =>
    simp only []
    exact h
  | some p =>
    simp only []
    cases hn : normalizeShopifyProduct sp p t loc with
    | none =>
      simp only []
      exact h
    | some n =>
      simp only []
      constructor
      · intro m hm
        rcases List.mem_append.mp hm with hm1 | hm2
        · exact List.mem_append_left _ (h.1 m hm1)
        · simp only [List.mem_singleton] at hm2
          subst hm2
          refine List.mem_append_right _ ?_
          rw [normalize_sku_toLower hn]
          simp
      · intro s hs
        rcases List.mem_append.mp hs with hs1 | hs2
        · obtain ⟨m, hm, hms⟩ := h.2 s hs1
          exact ⟨m, List.mem_append_left _ hm, hms⟩
        · simp only [List.mem_singleton] at hs2
          subst hs2
          exact ⟨n, List.mem_append_right _ (by simp), normalize_sku_toLower hn⟩

theorem foldl_preserves {α β : Type} {P : β → Prop} {f : β → α → β}
    (hstep : ∀ b a, P b → P (f b a)) :
    ∀ (l : List α) (b : β), P b → P (l.foldl f b) := by
  intro l
  induction l with
  | nil => intro b hb; exact hb
  | cons a l ih => intro b hb; exact ih _ (hstep _ _ hb)

/-- The invariant holds after folding any batch list through the lookup loop. -/
theorem lookup_inv_fold (gw : String → List ShopifyProduct) (csvProducts : List CSVProduct)
    (t : ℚ) (loc : Option String) (batches : List (List String)) :
    (∀ n ∈ (batches.foldl (lookupBatchStep gw csvProducts t loc) ⟨[], []⟩).allProducts,
      jsToLower n.sku ∈ (batches.foldl (lookupBatchStep gw csvProducts t loc) ⟨[], []⟩).foundSkus) ∧
    (∀ s ∈ (batches.foldl (lookupBatchStep gw csvProducts t loc) ⟨[], []⟩).foundSkus,
      ∃ n ∈ (batches.foldl (lookupBatchStep gw csvProducts t loc) ⟨[], []⟩).allProducts,
        jsToLower n.sku = s) := by
  have hstep : ∀ (acc : LookupAcc) (batch : List String),
      ((∀ n ∈ acc.allProducts, jsToLower n.sku ∈ acc.foundSkus) ∧
       (∀ s ∈ acc.foundSkus, ∃ n ∈ acc.allProducts, jsToLower n.sku = s)) →
      ((∀ n ∈ (lookupBatchStep gw csvProducts t loc acc batch).allProducts,
        jsToLower n.sku ∈ (lookupBatchStep gw csvProducts t loc acc batch).foundSkus) ∧
       (∀ s ∈ (lookupBatchStep gw csvProducts t loc acc batch).foundSkus,
        ∃ n ∈ (lookupBatchStep gw csvProducts t loc acc batch).allProducts,
          jsToLower n.sku = s)) := by
    intro acc batch hacc
    unfold lookupBatchStep
    by_cases hq : buildSkuQuery batch = ""
    · rw [if_pos hq]
      exact hacc
    · rw [if_neg hq]
      refine @foldl_preserves ShopifyProduct LookupAcc
        (fun b => (∀ n ∈ b.allProducts, jsToLower n.sku ∈ b.foundSkus) ∧
          (∀ s ∈ b.foundSkus, ∃ n ∈ b.allProducts, jsToLower n.sku = s))
        (lookupProductStep csvProducts t loc) ?_ (gw (buildSkuQuery batch)) acc hacc
      intro b sp hb
      unfold lookupProductStep
      exact @foldl_preserves ShopifyVariant LookupAcc
        (fun b2 => (∀ n ∈ b2.allProducts, jsToLower n.sku ∈ b2.foundSkus) ∧
          (∀ s ∈ b2.foundSkus, ∃ n ∈ b2.allProducts, jsToLower n.sku = s))
        (lookupVariantStep csvProducts t loc sp)
        (fun b2 v hb2 => lookup_inv_step csvProducts t loc sp b2 v hb2)
        sp.variants b hb
  exact @foldl_preserves (List String) LookupAcc
    (fun b => (∀ n ∈ b.allProducts, jsToLower n.sku ∈ b.foundSkus) ∧
      (∀ s ∈ b.foundSkus, ∃ n ∈ b.allProducts, jsToLower n.sku = s))
    (lookupBatchStep gw csvProducts t loc) hstep batches ⟨[], []⟩
    ⟨fun n hn => absurd hn (List.not_mem_nil n), fun s hs => absurd hs (List.not_mem_nil s)⟩

/-- C2: the lookup's notFound list and the matched items' SKUs partition the
input SKU set under case-insensitive comparison: every input SKU is matched
case-insensitively by some returned item or listed (in original casing) in
notFound, every notFound entry is an original input SKU, and no input SKU is
in both. -/
theorem lookupProducts_partitions (csvProducts : List CSVProduct) (t : ℚ)
    (loc : Option String) (gw : String → List ShopifyProduct) :
    (∀ p ∈ csvProducts,
      (∃ n ∈ (lookupProducts csvProducts t loc gw).products,
        jsToLower n.sku = jsToLower p.sku) ∨
      p.sku ∈ (lookupProducts csvProducts t loc gw).notFound) ∧
    (∀ s ∈ (lookupProducts csvProducts t loc gw).notFound,
      ∃ p ∈ csvProducts, p.sku = s) ∧
    (∀ p ∈ csvProducts, p.sku ∈ (lookupProducts csvProducts t loc gw).notFound →
      ¬ ∃ n ∈ (lookupProducts csvProducts t loc gw).products,
        jsToLower n.sku = jsToLower p.sku) := by
  by_cases hemp : csvProducts.isEmpty
  · have hnil : csvProducts = [] := by simpa [List.isEmpty_iff] using hemp
    subst hnil
    refine ⟨?_, ?_, ?_⟩
    · intro p hp
      exact absurd hp (List.not_mem_nil p)
    · intro s hs
      have : (lookupProducts [] t loc gw).notFound = [] := rfl
      rw [this] at hs
      exact absurd hs (List.not_mem_nil s)
    · intro p hp
      exact absurd hp (List.not_mem_nil p)
  · have hfalse : csvProducts.isEmpty = false := by
      rwa [Bool.not_eq_true] at hemp
    have hP : (lookupProducts csvProducts t loc gw).products =
        ((chunkArray (csvProducts.map (fun p => p.sku)) 50).foldl
          (lookupBatchStep gw csvProducts t loc) ⟨[], []⟩).allProducts := by
      unfold lookupProducts
      rw [hfalse]
      rfl
    have hN : (lookupProducts csvProducts t loc gw).notFound =
        (csvProducts.filter (fun p =>
          !(((chunkArray (csvProducts.map (fun q => q.sku)) 50).foldl
            (lookupBatchStep gw csvProducts t loc) ⟨[], []⟩).foundSkus.contains
              (jsToLower p.sku)))).map (fun p => p.sku) := by
      unfold lookupProducts
      rw [hfalse]
      rfl
    obtain ⟨I1, I2⟩ := lookup_inv_fold gw csvProducts t loc
      (chunkArray (csvProducts.map (fun p => p.sku)) 50)
    refine ⟨?_, ?_, ?_⟩
    · intro p hp
      by_cases hf : jsToLower p.sku ∈
          ((chunkArray (csvProducts.map (fun q => q.sku)) 50).foldl
            (lookupBatchStep gw csvProducts t loc) ⟨[], []⟩).foundSkus
      · left
        obtain ⟨n, hn, hns⟩ := I2 _ hf
        exact ⟨n, by rw [hP]; exact hn, hns⟩
      · right
        rw [hN]
        refine List.mem_map.mpr ⟨p, List.mem_filter.mpr ⟨hp, ?_⟩, rfl⟩
        simpa using hf
    · intro s hs
      rw [hN] at hs
      obtain ⟨p, hpmem, hps⟩ := List.mem_map.mp hs
      exact ⟨p, List.mem_of_mem_filter hpmem, hps⟩
    · intro p hp hnot hcontr
      obtain ⟨n, hn, hns⟩ := hcontr
      rw [hN] at hnot
      obtain ⟨q, hq, hqs⟩ := List.mem_map.mp hnot
      have hqc := List.of_mem_filter hq
      have hnin : jsToLower q.sku ∉
          ((chunkArray (csvProducts.map (fun r => r.sku)) 50).foldl
            (lookupBatchStep gw csvProducts t loc) ⟨[], []⟩).foundSkus := by
        simpa using hqc
      have hin : jsToLower n.sku ∈
          ((chunkArray (csvProducts.map (fun r => r.sku)) 50).foldl
            (lookupBatchStep gw csvProducts t loc) ⟨[], []⟩).foundSkus :=
        I1 n (hP ▸ hn)
      rw [hns] at hin
      rw [show jsToLower q.sku = jsToLower p.sku from by rw [hqs]] at hnin
      exact hnin hin

/-- Witness for C2: a two-SKU input where the gateway knows only the first. -/
theorem lookupProducts_partitions_witness :
    ∃ p ∈ ([⟨"A1", 10, none⟩, ⟨"A2", 20, none⟩] : List CSVProduct), p.sku = "A2" :=
  (lookupProducts_partitions [⟨"A1", 10, none⟩, ⟨"A2", 20, none⟩] 5 none
    (fun _ => [⟨"P1", "T", none, [⟨"V1", some "A1", "15", ⟨"I1", some "8", none⟩, 3⟩]⟩])).2.1
    "A2" (by decide)

/-! ## C1: combined-write fallback in the pricing commit -/

/-- C1 amended: when the combined price+cost write of a sub-batch is rejected
with a cost-pattern error, the orchestrator retries the same sub-batch price
only and issues a standalone cost write per variant; each variant's outcome
is failed iff the price retry reported any error or a truthy (non-empty) cost
message is recorded under the variant's SKU, the reported message prefers
that cost message, and an updated variant carries the message
"pricing updated". -/
theorem pricing_fallback_outcomes
    (bulkCall : List VariantWriteInput → GwResult BulkUpdatePayload)
    (invItem : String → ℚ → GwResult InvItemUpdatePayload)
    (variantBatch : List NormalizedProduct)
    (errs : List UserError) (priceData : Option BulkUpdatePayload)
    (effErrs : List UserError)
    (heff : effErrs = match priceData with
      | some p => p.userErrors
      | none => [{ field := none, message := "Price update failed" }])
    (hcomb : bulkCall (combinedInputs variantBatch) = GwResult.ok (some ⟨errs⟩))
    (hne : errs ≠ []) (hcost : hasCostError errs = true)
    (hprice : bulkCall (priceOnlyInputs variantBatch) = GwResult.ok priceData) :
    processSubBatch bulkCall invItem variantBatch =
      Except.ok (variantBatch.map
        (fallbackOutcome effErrs (buildCostErrors invItem variantBatch))) ∧
    (∀ v ∈ variantBatch,
      ((fallbackOutcome effErrs (buildCostErrors invItem variantBatch) v).updated = false ↔
        (effErrs ≠ [] ∨
          ∃ e, mapGet (buildCostErrors invItem variantBatch) v.sku = some e ∧ e ≠ ""))) ∧
    (∀ v ∈ variantBatch, ∀ e,
      mapGet (buildCostErrors invItem variantBatch) v.sku = some e → e ≠ "" →
      (fallbackOutcome effErrs (buildCostErrors invItem variantBatch) v).message = e) ∧
    (∀ v ∈ variantBatch,
      (fallbackOutcome effErrs (buildCostErrors invItem variantBatch) v).updated = true →
      (fallbackOutcome effErrs (buildCostErrors invItem variantBatch) v).message =
        "Pricing updated") := by
  refine ⟨?_, ?_, ?_, ?_⟩
  · unfold processSubBatch
    rw [hcomb]
    have hisempty : errs.isEmpty = false := by
      simpa [List.isEmpty_iff] using hne
    simp only [bulkPayloadErrors, hisempty, Bool.not_false, hcost, Bool.and_self, if_true]
    rw [hprice]
    simp only []
    rw [heff]
  · intro v hv
    unfold fallbackOutcome
    cases hce : mapGet (buildCostErrors invItem variantBatch) v.sku with
    | none =>
      simp [jsStrTruthy, hce, List.isEmpty_iff]
    | some e =>
      by_cases he : e = ""
      · subst he
        simp [jsStrTruthy, hce, List.isEmpty_iff]
      · simp [jsStrTruthy, hce, List.isEmpty_iff, he]
  · intro v hv e hce he
    unfold fallbackOutcome
    rw [hce]
    simp [jsStrTruthy, hce, he]
  · intro v hv hupd
    have hcond : (!effErrs.isEmpty ||
        jsStrTruthy (mapGet (buildCostErrors invItem variantBatch) v.sku)) = false := by
      have h2 : (!(!effErrs.isEmpty ||
          jsStrTruthy (mapGet (buildCostErrors invItem variantBatch) v.sku))) = true := hupd
      simpa using h2
    unfold fallbackOutcome
    simp only [hcond]
    simp

/-- Witness for C1 at the scenario named by the claim: the combined write is
rejected with a cost-pattern error, the price-only retry succeeds, the first
variant's standalone cost write fails and the second's succeeds; outcomes are
failed for the first variant and updated for the second. -/
theorem pricing_fallback_outcomes_witness :
    processSubBatch
      (fun inputs =>
        if (inputs.headD ⟨"", "", none⟩).cost.isSome then
          GwResult.ok (some { userErrors :=
            [{ field := some ["variants", "0", "inventoryItem", "cost"],
               message := "Invalid cost" }] })
        else GwResult.ok (some { userErrors := [] }))
      (fun id _ =>
        if id = "I1" then
          GwResult.ok (some { userErrors := [{ field := none, message := "Cost exceeds limit" }] })
        else GwResult.ok (some { userErrors := [] }))
      [{ id := "P1", variantId := "V1", inventoryItemId := "I1", sku := "A",
         name := "", image := "", cost := 2, price := 10, quantity := 0,
         costNew := 3, quantityNew := 0, margin := 0,
         marginStatus := MarginStatus.good, update := true },
       { id := "P1", variantId := "V2", inventoryItemId := "I2", sku := "B",
         name := "", image := "", cost := 2, price := 20, quantity := 0,
         costNew := 4, quantityNew := 0, margin := 0,
         marginStatus := MarginStatus.good, update := true }] =
    Except.ok
      [{ sku := "A", updated := false, message := "Cost exceeds limit",
         error := some "Cost exceeds limit" },
       { sku := "B", updated := true, message := "Pricing updated", error := none }] := by
  have h := (pricing_fallback_outcomes
    (fun inputs =>
      if (inputs.headD ⟨"", "", none⟩).cost.isSome then
        GwResult.ok (some { userErrors :=
          [{ field := some ["variants", "0", "inventoryItem", "cost"],
             message := "Invalid cost" }] })
      else GwResult.ok (some { userErrors := [] }))
    (fun id _ =>
      if id = "I1" then
        GwResult.ok (some { userErrors := [{ field := none, message := "Cost exceeds limit" }] })
      else GwResult.ok (some { userErrors := [] }))
    [{ id := "P1", variantId := "V1", inventoryItemId := "I1", sku := "A",
       name := "", image := "", cost := 2, price := 10, quantity := 0,
       costNew := 3, quantityNew := 0, margin := 0,
       marginStatus := MarginStatus.good, update := true },
     { id := "P1", variantId := "V2", inventoryItemId := "I2", sku := "B",
       name := "", image := "", cost := 2, price := 20, quantity := 0,
       costNew := 4, quantityNew := 0, margin := 0,
       marginStatus := MarginStatus.good, update := true }]
    [{ field := some ["variants", "0", "inventoryItem", "cost"], message := "Invalid cost" }]
    (some { userErrors := [] }) [] rfl (by decide) (by decide) (by decide) (by decide)).1
  exact h.trans (congrArg Except.ok (by decide))

/-- C1 counterexample: two variants in the sub-batch share the SKU "A"; the
price-only retry reports no errors and the second variant's own standalone
cost write succeeds, yet the second variant's outcome is updated = false,
because cost errors are recorded and looked up per SKU, not per variant. -/
theorem pricing_fallback_shared_sku_counterexample :
    ((fun id _ =>
      if id = "I1" then
        GwResult.ok (some { userErrors := [{ field := none, message := "Cost exceeds limit" }] })
      else GwResult.ok (some { userErrors := [] })) :
      String → ℚ → GwResult InvItemUpdatePayload) "I2" (4 : ℚ) =
      GwResult.ok (some { userErrors := [] }) ∧
    ((fun inputs =>
      if (inputs.headD ⟨"", "", none⟩).cost.isSome then
        GwResult.ok (some { userErrors :=
          [{ field := some ["variants", "0", "inventoryItem", "cost"],
             message := "Invalid cost" }] })
      else GwResult.ok (some { userErrors := [] })) :
      List VariantWriteInput → GwResult BulkUpdatePayload)
      (priceOnlyInputs
        [{ id := "P1", variantId := "V1", inventoryItemId := "I1", sku := "A",
           name := "", image := "", cost := 2, price := 10, quantity := 0,
           costNew := 3, quantityNew := 0, margin := 0,
           marginStatus := MarginStatus.good, update := true },
         { id := "P1", variantId := "V2", inventoryItemId := "I2", sku := "A",
           name := "", image := "", cost := 2, price := 20, quantity := 0,
           costNew := 4, quantityNew := 0, margin := 0,
           marginStatus := MarginStatus.good, update := true }]) =
      GwResult.ok (some { userErrors := [] }) ∧
    processSubBatch
      (fun inputs =>
        if (inputs.headD ⟨"", "", none⟩).cost.isSome then
          GwResult.ok (some { userErrors :=
            [{ field := some ["variants", "0", "inventoryItem", "cost"],
               message := "Invalid cost" }] })
        else GwResult.ok (some { userErrors := [] }))
      (fun id _ =>
        if id = "I1" then
          GwResult.ok (some { userErrors := [{ field := none, message := "Cost exceeds limit" }] })
        else GwResult.ok (some { userErrors := [] }))
      [{ id := "P1", variantId := "V1", inventoryItemId := "I1", sku := "A",
         name := "", image := "", cost := 2, price := 10, quantity := 0,
         costNew := 3, quantityNew := 0, margin := 0,
         marginStatus := MarginStatus.good, update := true },
       { id := "P1", variantId := "V2", inventoryItemId := "I2", sku := "A",
         name := "", image := "", cost := 2, price := 20, quantity := 0,
         costNew := 4, quantityNew := 0, margin := 0,
         marginStatus := MarginStatus.good, update := true }] =
    Except.ok
      [{ sku := "A", updated := false, message := "Cost exceeds limit",
         error := some "Cost exceeds limit" },
       { sku := "A", updated := false, message := "Cost exceeds limit",
         error := some "Cost exceeds limit" }] := by
  refine ⟨by decide, by decide, ?_⟩
  rfl
